import Mathlib

/-!
Verification development for the Express product API
(`src/routes/productRoutes.js`, `src/middleware/validation.js`,
`src/middleware/auth.js`, the Mongoose product model and the global error
handler).  The JavaScript route handlers are shallowly embedded as pure Lean
functions over a list-of-products store; machine doubles are modelled by `ℚ`
with an explicit `JSNum.nan` constructor where `NaN` can arise
(`parseInt`/`parseFloat` on non-numeric input).
-/

set_option linter.unusedVariables false

namespace ProductApi

/-! ### JavaScript numeric primitives -/

/-- Whitespace recognised by `parseInt`/`parseFloat`/`trim` (ASCII fragment of
the ECMAScript whitespace set; the Unicode space characters are outside the
modelled fragment and never occur in the repository's inputs). -/
def isJSSpace (c : Char) : Bool :=
  c = ' ' ∨ c = '\t' ∨ c = '\n' ∨ c = '\r' ∨ c = Char.ofNat 11 ∨ c = Char.ofNat 12

/-- Value of a decimal digit character (its position in the digit alphabet),
`none` for a non-digit. -/
def decVal (c : Char) : Option Nat :=
  List.findIdx? (fun d => d = c) "0123456789".toList

/-- Value of a hexadecimal digit character, `none` for a non-digit. -/
def hexVal (c : Char) : Option Nat :=
  match decVal c with
  | some v => some v
  | none =>
    match List.findIdx? (fun d => d = c) "abcdef".toList with
    | some i => some (10 + i)
    | none =>
      match List.findIdx? (fun d => d = c) "ABCDEF".toList with
      | some i => some (10 + i)
      | none => none

/-- Accumulate the value of the leading digits of `cs` (digit values given by
`f`, radix `base`), ignoring everything from the first non-digit on; `none`
when no digit at all was consumed — exactly how `parseInt` scans its input. -/
def digitsValue (base : Nat) (f : Char → Option Nat) : List Char → Option Nat → Option Nat
  | [], acc => acc
  | c :: cs, acc =>
    match f c with
    | some d => digitsValue base f cs (some ((acc.getD 0) * base + d))
    | none => acc

/-- Model of JavaScript `parseInt(s)` (no explicit radix): skip leading
whitespace, optional sign, optional `0x`/`0X` hexadecimal prefix, then leading
digits with trailing garbage ignored; `none` models the `NaN` result. -/
def parseIntJS (s : String) : Option Int :=
  let cs0 := s.toList.dropWhile isJSSpace
  let sgn : Int := match cs0 with | '-' :: _ => -1 | _ => 1
  let cs1 := match cs0 with | '-' :: r => r | '+' :: r => r | _ => cs0
  match cs1 with
  | '0' :: 'x' :: r => (digitsValue 16 hexVal r none).map (fun n => sgn * n)
  | '0' :: 'X' :: r => (digitsValue 16 hexVal r none).map (fun n => sgn * n)
  | _ => (digitsValue 10 decVal cs1 none).map (fun n => sgn * n)

/-- Exponent part of a float literal after the `e`/`E`: optional sign then
leading digits; a missing exponent value is ignored (contributes 0), as
`parseFloat("1e")` evaluates to `1`. -/
def parseExpJS (r : List Char) : Int :=
  let sgn : Int := match r with | '-' :: _ => -1 | _ => 1
  let r1 := match r with | '-' :: t => t | '+' :: t => t | _ => r
  match digitsValue 10 decVal r1 none with
  | some n => sgn * n
  | none => 0

/-- Model of JavaScript `parseFloat(s)`: skip leading whitespace, optional
sign, decimal digits with optional fraction and exponent, trailing garbage
ignored; `none` models the `NaN` result.  The literal `Infinity` is outside
the modelled fragment (it never occurs in this repository's inputs). -/
def parseFloatJS (s : String) : Option ℚ :=
  let cs0 := s.toList.dropWhile isJSSpace
  let sgn : ℚ := match cs0 with | '-' :: _ => -1 | _ => 1
  let cs1 := match cs0 with | '-' :: r => r | '+' :: r => r | _ => cs0
  let intDigits := cs1.takeWhile (fun c => (decVal c).isSome)
  let rest1 := cs1.dropWhile (fun c => (decVal c).isSome)
  let fracDigits := match rest1 with
    | '.' :: r => r.takeWhile (fun c => (decVal c).isSome)
    | _ => []
  let rest2 := match rest1 with
    | '.' :: r => r.dropWhile (fun c => (decVal c).isSome)
    | _ => rest1
  if intDigits.isEmpty ∧ fracDigits.isEmpty then none
  else
    let mantissa : ℚ :=
      ((digitsValue 10 decVal intDigits none).getD 0 : ℚ) +
        ((digitsValue 10 decVal fracDigits none).getD 0 : ℚ) / ((10 : ℚ) ^ fracDigits.length)
    let e : Int := match rest2 with
      | 'e' :: r => parseExpJS r
      | 'E' :: r => parseExpJS r
      | _ => 0
    some (sgn * mantissa * (10 : ℚ) ^ e)

/-- Math.max(a, x) where `x` may be `NaN` (`none`): any comparison with `NaN`
yields `NaN`. -/
def jsMax (a : Int) : Option Int → Option Int
  | none => none
  | some x => some (max a x)

/-- Math.min(x, b) where `x` may be `NaN` (`none`). -/
def jsMin (b : Int) : Option Int → Option Int
  | none => none
  | some x => some (min x b)

/-! ### Query normalizer (listing and search endpoints)

From `src/routes/productRoutes.js`:
listing `GET /` uses
`pageNum  = Math.max(1, parseInt(page))` (destructuring default `page = 1`),
`limitNum = Math.max(1, Math.min(parseInt(limit), 100))` (default `limit = 10`),
`skip = (pageNum - 1) * limitNum`;
`GET /search` uses
`pageNum = Math.max(1, parseInt(page))`, `limitNum = Math.max(1, parseInt(limit))`.
A missing parameter takes the numeric destructuring default, which `parseInt`
turns back into itself (`parseInt(10) = 10`); `none` models `NaN`. -/

/-- Normalized page number of the listing endpoint. -/
def listingPageNum (raw : Option String) : Option Int :=
  let parsed := match raw with | none => some 1 | some s => parseIntJS s
  jsMax 1 parsed

/-- Normalized per-page limit of the listing endpoint. -/
def listingLimitNum (raw : Option String) : Option Int :=
  let parsed := match raw with | none => some 10 | some s => parseIntJS s
  jsMax 1 (jsMin 100 parsed)

/-- Skip count `(pageNum - 1) * limitNum`; `NaN` propagates. -/
def skipOf : Option Int → Option Int → Option Int
  | some p, some l => some ((p - 1) * l)
  | _, _ => none

/-- Normalized page number of the search endpoint (same formula as listing). -/
def searchPageNum (raw : Option String) : Option Int :=
  let parsed := match raw with | none => some 1 | some s => parseIntJS s
  jsMax 1 parsed

/-- Normalized per-page limit of the search endpoint: only the lower bound 1
is enforced, there is no `Math.min(_, 100)` upper clamp. -/
def searchLimitNum (raw : Option String) : Option Int :=
  let parsed := match raw with | none => some 10 | some s => parseIntJS s
  jsMax 1 parsed

/-! ### Category filter (listing endpoint)

The route builds `filter.category = { $regex: new RegExp('^' + cleanCategory + '$', 'i') }`
where `cleanCategory = category.trim()` — the raw parameter is spliced into a
regular expression, anchored on both sides, with the case-insensitive flag.
We embed the fragment of ECMAScript regular expressions that plain category
values can produce: literal characters, `.` and postfix `*`; a pattern using
any other metacharacter is outside the modelled fragment (`parsePattern`
returns `none`). -/

/-- ASCII lower-casing, the effect of the regex `i` flag on ASCII letters. -/
def asciiLower (c : Char) : Char :=
  if 'A' ≤ c ∧ c ≤ 'Z' then Char.ofNat (c.toNat + 32) else c

/-- ECMAScript regex metacharacters (pattern syntax characters). -/
def isRegexMeta (c : Char) : Bool :=
  c = '.' ∨ c = '*' ∨ c = '+' ∨ c = '?' ∨ c = '^' ∨ c = '$' ∨ c = '(' ∨ c = ')' ∨
  c = '[' ∨ c = ']' ∨ c = '|' ∨ c = '\\' ∨ c.toNat = 123 ∨ c.toNat = 125

/-- Regex atom of the modelled fragment: the wildcard `.` or a literal char. -/
inductive RAtom where
  | rdot : RAtom
  | rlit : Char → RAtom
deriving DecidableEq

/-- Parse a pattern body (the part between the `^` and `$` the route adds)
into a list of atoms, each optionally starred.  Patterns using metacharacters
outside the modelled fragment give `none`. -/
def parsePattern : List Char → Option (List (RAtom × Bool))
  | [] => some []
  | c :: '*' :: rest =>
    if isRegexMeta c ∧ c ≠ '.' then none
    else (parsePattern rest).map
      (fun t => ((if c = '.' then RAtom.rdot else RAtom.rlit c), true) :: t)
  | c :: rest =>
    if isRegexMeta c ∧ c ≠ '.' then none
    else (parsePattern rest).map
      (fun t => ((if c = '.' then RAtom.rdot else RAtom.rlit c), false) :: t)

/-- Does an atom match one character, under the `i` flag?  The wildcard does
not match line terminators. -/
def atomMatchesI : RAtom → Char → Bool
  | RAtom.rdot, c => ¬ (c = '\n' ∨ c = '\r')
  | RAtom.rlit l, c => asciiLower l = asciiLower c

/-- Consume one character matching atom `a` from the front of a suffix. -/
def stepAtom (a : RAtom) : List Char → Option (List Char)
  | c :: cs => if atomMatchesI a c then some cs else none
  | [] => none

/-- All suffixes reachable from `s` by consuming zero or more characters each
matching atom `a` (the states a starred atom can leave the matcher in). -/
def starTails (a : RAtom) : List Char → List (List Char)
  | [] => [[]]
  | c :: cs => (c :: cs) :: (if atomMatchesI a c then starTails a cs else [])

/-- Advance the set of live suffixes across one pattern element. -/
def stepPat (a : RAtom) (starred : Bool) (sfx : List (List Char)) : List (List Char) :=
  if starred then (sfx.map (starTails a)).flatten else sfx.filterMap (stepAtom a)

/-- Run the pattern over a set of live suffixes; the pattern matches when
some live suffix is exhausted at the end. -/
def patMatchAux : List (RAtom × Bool) → List (List Char) → Bool
  | [], sfx => sfx.any List.isEmpty
  | (a, st) :: ps, sfx => patMatchAux ps (stepPat a st sfx)

/-- Full (anchored) match of a parsed pattern against a character list: the
boolean outcome of `/^pat$/i.test(s)` for patterns in the modelled fragment. -/
def patMatch (p : List (RAtom × Bool)) (s : List Char) : Bool :=
  patMatchAux p [s]

/-- Outcome of `new RegExp('^' + pattern + '$', 'i').test(stored)` for
patterns in the modelled fragment. -/
def categoryRegexMatch (pattern stored : String) : Option Bool :=
  (parsePattern pattern.toList).map (fun p => patMatch p stored.toList)

/-- JavaScript `String.prototype.trim` (ASCII whitespace fragment). -/
def trimJS (s : String) : String :=
  String.mk (((s.toList.dropWhile isJSSpace).reverse.dropWhile isJSSpace).reverse)

/-- The trimmed category pattern the listing route will filter on, `none`
when the parameter is absent or blank (in which case no category filter is
added to the query). -/
def listingCategoryPattern (raw : Option String) : Option String :=
  match raw with
  | none => none
  | some s => let t := trimJS s; if t = "" then none else some t

/-- Whether a stored category value passes the listing route's category
filter (`some true`/`some false`); `none` when the spliced pattern falls
outside the modelled regex fragment.  No supplied filter matches everything. -/
def listingCategoryMatches (raw : Option String) (stored : String) : Option Bool :=
  match listingCategoryPattern raw with
  | none => some true
  | some pat => categoryRegexMatch pat stored

/-- Modelled from the spec (refinement target for C3): "the stored category
equals the supplied value up to letter case". -/
def specCaseInsensitiveEq (a b : String) : Bool :=
  decide (a.toList.map asciiLower = b.toList.map asciiLower)

/-! ### Price-range filter (listing endpoint)

From the route:
`if (minPrice || maxPrice) { filter.price = {}; if (minPrice) filter.price.$gte = parseFloat(minPrice); if (maxPrice) filter.price.$lte = parseFloat(maxPrice); }`.
The guards are JavaScript truthiness on the raw query strings (an empty
string is falsy, any other string — parsable or not — is truthy), so an
unparsable non-empty bound is *included* with value `NaN`. -/

/-- A JavaScript number: a finite value or `NaN`. -/
inductive JSNum where
  | num : ℚ → JSNum
  | nan : JSNum
deriving DecidableEq

/-- parseFloat producing a JavaScript number. -/
def jsParseFloat (s : String) : JSNum :=
  match parseFloatJS s with
  | some q => JSNum.num q
  | none => JSNum.nan

/-- The `filter.price` object: which of `$gte`/`$lte` are present, and with
what (possibly `NaN`) value. -/
structure PriceFilter where
  gte : Option JSNum
  lte : Option JSNum
deriving DecidableEq

/-- JavaScript truthiness of an optional query-string value. -/
def truthyStr : Option String → Bool
  | none => false
  | some s => s ≠ ""

/-- Build `filter.price` exactly as the listing route does; `none` means no
price predicate is added to the query at all. -/
def mkPriceFilter (minPrice maxPrice : Option String) : Option PriceFilter :=
  if truthyStr minPrice ∨ truthyStr maxPrice then
    some
      { gte := if truthyStr minPrice then some (jsParseFloat (minPrice.getD "")) else none
        lte := if truthyStr maxPrice then some (jsParseFloat (maxPrice.getD "")) else none }
  else none

/-- MongoDB `$gte` comparison of a stored (real) number against a bound:
comparisons against a `NaN` bound match only `NaN`-valued fields, hence never
a real-valued price. -/
def boundGteSat : JSNum → ℚ → Bool
  | JSNum.num q, p => decide (q ≤ p)
  | JSNum.nan, _ => false

/-- MongoDB `$lte` comparison of a stored (real) number against a bound. -/
def boundLteSat : JSNum → ℚ → Bool
  | JSNum.num q, p => decide (p ≤ q)
  | JSNum.nan, _ => false

/-- Does a stored price satisfy the (possibly absent) price predicate? -/
def priceMatches (f : Option PriceFilter) (p : ℚ) : Bool :=
  match f with
  | none => true
  | some pf =>
    (match pf.gte with | none => true | some b => boundGteSat b p) &&
    (match pf.lte with | none => true | some b => boundLteSat b p)

/-! ### Product model, request bodies and the validation middleware

`src/models/products.js` defines `name`/`description`/`category` as required
strings, `price` as a required number and `inStock` as a boolean defaulting
to `true` (the `createdAt`/`updatedAt` timestamps play no role in any claim
and are omitted).  A document's identity is its ObjectId, kept as a string. -/

/-- A stored product document. -/
structure Product where
  id : String
  name : String
  description : String
  price : ℚ
  category : String
  inStock : Bool
deriving DecidableEq

/-- A JSON value as the routes inspect it (`typeof` checks distinguish
string, number, boolean; `null` is its own case). -/
inductive JSVal where
  | str : String → JSVal
  | num : ℚ → JSVal
  | bool : Bool → JSVal
  | null : JSVal
deriving DecidableEq

/-- A request body for create/update: each product field either absent
(`undefined`) or some JSON value. -/
structure Body where
  name : Option JSVal := none
  description : Option JSVal := none
  price : Option JSVal := none
  category : Option JSVal := none
  inStock : Option JSVal := none
deriving DecidableEq

/-- JavaScript falsiness of an optional body field (`!x`): `undefined`,
`null`, `""`, `0` and `false` are falsy. -/
def falsyVal : Option JSVal → Bool
  | none => true
  | some (JSVal.str s) => s = ""
  | some (JSVal.num q) => q = 0
  | some (JSVal.bool b) => !b
  | some JSVal.null => true

/-- The check `!x || typeof x !== 'string' || x.trim().length === 0` used for
`name`, `description` and `category` in `src/middleware/validation.js`. -/
def strCheckFails (v : Option JSVal) : Bool :=
  falsyVal v ||
    (match v with
     | some (JSVal.str s) => trimJS s = ""
     | _ => true)

/-- Errors contributed by the `price` checks: required (not undefined/null),
then `typeof price !== 'number' || price < 0`. -/
def priceFieldErrors : Option JSVal → List String
  | none => ["Price is required"]
  | some JSVal.null => ["Price is required"]
  | some (JSVal.num q) => if q < 0 then ["Price must be a positive number"] else []
  | some _ => ["Price must be a positive number"]

/-- Errors contributed by the `inStock` check:
`inStock !== undefined && typeof inStock !== 'boolean'`. -/
def inStockFieldErrors : Option JSVal → List String
  | none => []
  | some (JSVal.bool _) => []
  | some _ => ["inStock must be a boolean value"]

/-- The error list accumulated by the `validateProduct` middleware, in source
order (name, description, price, category, inStock). -/
def validateProductErrors (b : Body) : List String :=
  (if strCheckFails b.name then ["Name is required and must be a non-empty string"] else []) ++
  (if strCheckFails b.description then ["Description is required and must be a non-empty string"] else []) ++
  priceFieldErrors b.price ++
  (if strCheckFails b.category then ["Category is required and must be a non-empty string"] else []) ++
  inStockFieldErrors b.inStock

/-- After validation passes, the middleware replaces the string fields by
their trimmed values (`req.body.name = name.trim()` etc.). -/
def trimBody (b : Body) : Body :=
  { b with
    name := match b.name with | some (JSVal.str s) => some (JSVal.str (trimJS s)) | v => v
    description := match b.description with | some (JSVal.str s) => some (JSVal.str (trimJS s)) | v => v
    category := match b.category with | some (JSVal.str s) => some (JSVal.str (trimJS s)) | v => v }

/-! ### Identity handling and the `GET/PUT/DELETE /:id` routes

Mongoose casts a string route parameter to an ObjectId when it is a 24-digit
hexadecimal string (or a 12-character string); any other value makes
`findById`/`findByIdAndUpdate`/`findByIdAndDelete` throw a `CastError`.  Each
route has its own `try/catch`: the GET handler answers 404 from its catch
block, while the PUT and DELETE handlers answer 500 `"Internal server error"`
— the global error handler's `CastError → 400 "Invalid ID format"` branch is
unreachable from these routes because they never forward the error. -/

/-- Is a character a hexadecimal digit? -/
def isHexChar (c : Char) : Bool :=
  ('0' ≤ c ∧ c ≤ '9') ∨ ('a' ≤ c ∧ c ≤ 'f') ∨ ('A' ≤ c ∧ c ≤ 'F')

/-- Mongoose's ObjectId castability test for strings. -/
def validObjectIdString (s : String) : Bool :=
  (s.length = 24 ∧ s.toList.all isHexChar) ∨ s.length = 12

/-- `findByIdAndUpdate(id, body)` applies a `$set` of exactly the supplied
fields: absent fields keep their stored value. -/
def applyUpdate (p : Product) (b : Body) : Product :=
  { p with
    name := match b.name with | some (JSVal.str s) => s | _ => p.name
    description := match b.description with | some (JSVal.str s) => s | _ => p.description
    price := match b.price with | some (JSVal.num q) => q | _ => p.price
    category := match b.category with | some (JSVal.str s) => s | _ => p.category
    inStock := match b.inStock with | some (JSVal.bool v) => v | _ => p.inStock }

/-- Outcome of a state-touching route: HTTP status and the store afterwards. -/
structure RouteOutcome where
  status : Nat
  store : List Product
deriving DecidableEq

/-- The `PUT /:id` handler (after `authenticate`): `validateProduct` first
(400 on any error), then `findByIdAndUpdate` — a malformed id throws a
`CastError` which the route's own catch turns into a 500; an unknown id gives
404; otherwise the supplied fields are patched in and 200 returned. -/
def putRoute (store : List Product) (id : String) (b : Body) : RouteOutcome :=
  if validateProductErrors b ≠ [] then ⟨400, store⟩
  else if ¬ validObjectIdString id then ⟨500, store⟩
  else
    match store.find? (fun p => p.id == id) with
    | none => ⟨404, store⟩
    | some _ => ⟨200, store.map (fun p => if p.id == id then applyUpdate p (trimBody b) else p)⟩

/-- The `DELETE /:id` handler (after `authenticate`): a malformed id throws a
`CastError` which the route's own catch turns into a 500. -/
def deleteRoute (store : List Product) (id : String) : RouteOutcome :=
  if ¬ validObjectIdString id then ⟨500, store⟩
  else if store.any (fun p => p.id == id) then ⟨200, store.filter (fun p => !(p.id == id))⟩
  else ⟨404, store⟩

/-- Status answered by the `GET /:id` handler: its catch block answers 404
for a malformed id, and a missing document also answers 404. -/
def getByIdStatus (store : List Product) (id : String) : Nat :=
  if ¬ validObjectIdString id then 404
  else if store.any (fun p => p.id == id) then 200
  else 404

/-! ### Statistics endpoint (`GET /stats`)

The first aggregation groups products by exact `category` value and computes
count, average price, total value, price extremes, in/out-of-stock counts and
`inStockPercentage = $round(inStockCount / count * 100, 2)`; a `$sort`
stage orders the groups by `count` descending.  The second aggregation
(`_id: null`) computes overall price statistics; with an empty store it
produces no document and the response substitutes `{}`.  The summary block
uses plain counts and `(inStockCount / totalProducts * 100).toFixed(2)`
guarded by `totalProducts > 0`. -/

/-- JavaScript `Math.round`: round half toward positive infinity. -/
def jsRound (x : ℚ) : ℤ := ⌊x + 1 / 2⌋

/-- `Math.round(x * 100) / 100` — the rounding used for the overall price
statistics. -/
def jsRound2 (x : ℚ) : ℚ := (jsRound (x * 100) : ℚ) / 100

/-- MongoDB `$round(x, 0)`: round half to even (banker's rounding). -/
def mongoRound (x : ℚ) : ℤ :=
  if x - ⌊x⌋ < 1 / 2 then ⌊x⌋
  else if 1 / 2 < x - ⌊x⌋ then ⌊x⌋ + 1
  else if ⌊x⌋ % 2 = 0 then ⌊x⌋ else ⌊x⌋ + 1

/-- MongoDB `$round(x, 2)` — the rounding used inside the category
aggregation. -/
def mongoRound2 (x : ℚ) : ℚ := (mongoRound (x * 100) : ℚ) / 100

/-- One element of the `categories` array in the stats response. -/
structure CategoryStat where
  category : String
  count : Nat
  averagePrice : ℚ
  totalValue : ℚ
  minPrice : ℚ
  maxPrice : ℚ
  inStockCount : Nat
  outOfStockCount : Nat
  inStockPercentage : ℚ
deriving DecidableEq

/-- The `$group` stage output (after `$project` formatting) for the group of
one category value.  A group produced by `$group` is never empty; the `[]`
branches below are unreachable from `productCategoryStats` and only make the
function total. -/
def mkCategoryStat (c : String) (g : List Product) : CategoryStat :=
  let n := g.length
  let prices := g.map Product.price
  let total : ℚ := prices.sum
  let isc := (g.filter Product.inStock).length
  { category := c
    count := n
    averagePrice := mongoRound2 (total / n)
    totalValue := mongoRound2 total
    minPrice := match prices with | [] => 0 | q :: qs => qs.foldl min q
    maxPrice := match prices with | [] => 0 | q :: qs => qs.foldl max q
    inStockCount := isc
    outOfStockCount := (g.filter (fun p => !p.inStock)).length
    inStockPercentage := mongoRound2 (((isc : ℚ) / (n : ℚ)) * 100) }

/-- Descending-count order used by the `$sort: { count: -1 }` stage. -/
def byCountDesc (a b : CategoryStat) : Prop := b.count ≤ a.count

instance : DecidableRel byCountDesc := fun a b => Nat.decLe _ _

instance : IsTotal CategoryStat byCountDesc :=
  ⟨fun a b => le_total b.count a.count⟩

instance : IsTrans CategoryStat byCountDesc :=
  ⟨fun _ _ _ h1 h2 => le_trans h2 h1⟩

/-- The `categories` array of the stats response: one group per distinct
category value present in the store, sorted by count descending.  (Which
order `$group` emits groups in is unspecified; the `$sort` stage makes the
count ordering deterministic, which is all any claim relies on.) -/
def productCategoryStats (ps : List Product) : List CategoryStat :=
  ((ps.map Product.category).dedup.map
      (fun c => mkCategoryStat c (ps.filter (fun p => p.category == c)))).insertionSort
    byCountDesc

/-- `countDocuments()` with no filter. -/
def totalProductsCount (ps : List Product) : Nat := ps.length

/-- `countDocuments({ inStock: true })`. -/
def inStockTotal (ps : List Product) : Nat := (ps.filter Product.inStock).length

/-- `countDocuments({ inStock: false })`. -/
def outOfStockTotal (ps : List Product) : Nat := (ps.filter (fun p => !p.inStock)).length

/-- JavaScript `toFixed(2)` on a rational (decimal rounding; the binary
double artifacts of `toFixed` are not modelled — no claim depends on them). -/
def toFixed2 (q : ℚ) : String :=
  let n : Int := jsRound (q * 100)
  let m := n.natAbs
  let ip := m / 100
  let fp := m % 100
  (if n < 0 then "-" else "") ++ toString ip ++ "." ++
    (if fp < 10 then "0" else "") ++ toString fp

/-- The `summary` block of the stats response.  `inStockPercentage` is a
pre-formatted string when the store is non-empty and the *number* `0`
otherwise (the ternary's else branch). -/
structure StatsSummary where
  totalProducts : Nat
  inStock : Nat
  outOfStock : Nat
  inStockPercentage : JSVal
deriving DecidableEq

/-- The `priceStatistics` block (present only when the `_id: null` aggregate
produced a document, i.e. the store is non-empty). -/
structure PriceStats where
  averagePrice : ℚ
  minPrice : ℚ
  maxPrice : ℚ
  totalInventoryValue : ℚ
deriving DecidableEq

/-- The overall (`_id: null`) price aggregation followed by the response
formatting (`Math.round(x*100)/100` on average and total). -/
def overallPriceStats (ps : List Product) : Option PriceStats :=
  match ps.map Product.price with
  | [] => none
  | q :: qs =>
    let total : ℚ := (q :: qs).sum
    some
      { averagePrice := jsRound2 (total / (q :: qs).length)
        minPrice := qs.foldl min q
        maxPrice := qs.foldl max q
        totalInventoryValue := jsRound2 total }

/-- The whole stats response (the `lastUpdated` timestamp is not modelled);
`priceStatistics = none` models the substituted empty object. -/
structure StatsResponse where
  summary : StatsSummary
  priceStatistics : Option PriceStats
  categories : List CategoryStat
deriving DecidableEq

/-- The `GET /stats` handler. -/
def statsResponse (ps : List Product) : StatsResponse :=
  let tot := totalProductsCount ps
  { summary :=
      { totalProducts := tot
        inStock := inStockTotal ps
        outOfStock := outOfStockTotal ps
        inStockPercentage :=
          if tot > 0 then
            JSVal.str (toFixed2 (((inStockTotal ps : ℚ) / (tot : ℚ)) * 100))
          else JSVal.num 0 }
    priceStatistics := overallPriceStats ps
    categories := productCategoryStats ps }

/-! ### Sample data used by witnesses -/

/-- A well-formed stored product with a valid 24-hex-digit ObjectId. -/
def sampleProduct : Product :=
  { id := "a1b2c3d4e5f6a1b2c3d4e5f6", name := "A", description := "d",
    price := 10, category := "x", inStock := true }

/-- The partial-update body of the repository README's `PUT /products/:id`
example: only `price` and `inStock` supplied. -/
def patchBody : Body :=
  { price := some (JSVal.num 1799), inStock := some (JSVal.bool false) }

/-- A body supplying every field with a valid value. -/
def fullBody : Body :=
  { name := some (JSVal.str "A"), description := some (JSVal.str "d"),
    price := some (JSVal.num 10), category := some (JSVal.str "x"),
    inStock := some (JSVal.bool true) }

/-- The single category group of the one-product store `[sampleProduct]`. -/
def sampleStat : CategoryStat :=
  { category := "x", count := 1, averagePrice := 10, totalValue := 10,
    minPrice := 10, maxPrice := 10, inStockCount := 1, outOfStockCount := 0,
    inStockPercentage := 100 }

end ProductApi

namespace ProductApi

/-! ## Theorems -/

/-! ### C2 — listing `limit` normalization -/

/-- C2, counterexample.  The claim says a requested limit below 1 or a
non-numeric limit is coerced to the default 10; in the code
`Math.max(1, Math.min(parseInt(limit), 100))` sends `"0"` to 1 and a
non-numeric value to `NaN` (modelled `none`), never to 10. -/
theorem listing_limit_not_defaulted_counterexample :
    listingLimitNum (some "0") ≠ some 10 ∧ listingLimitNum (some "abc") ≠ some 10 := by
  decide

/-- C2, amended.  On the listing endpoint the normalized limit is 10 when
the parameter is missing, `NaN` when it is non-numeric, and otherwise the
parsed integer clamped into [1, 100] (a value below 1 becomes 1, not 10). -/
theorem listing_limit_normalization (raw : Option String) :
    (raw = none → listingLimitNum raw = some 10) ∧
    (∀ s, raw = some s → parseIntJS s = none → listingLimitNum raw = none) ∧
    (∀ s n, raw = some s → parseIntJS s = some n →
      listingLimitNum raw = some (max 1 (min n 100)) ∧
      1 ≤ max 1 (min n 100) ∧ max 1 (min n 100) ≤ 100) := by
  refine ⟨?_, ?_, ?_⟩
  · rintro rfl
    rfl
  · rintro s rfl h
    simp [listingLimitNum, h, jsMin, jsMax]
  · rintro s n rfl h
    refine ⟨by simp [listingLimitNum, h, jsMin, jsMax], le_max_left _ _, ?_⟩
    omega

/-- C2, witness: a requested limit of 250 is clamped to 100. -/
theorem listing_limit_normalization_witness : listingLimitNum (some "250") = some 100 := by
  have h := ((listing_limit_normalization (some "250")).2.2 "250" 250 rfl (by decide)).1
  rw [h]
  decide

/-! ### C6 — listing `page` normalization and skip -/

/-- C6, counterexample.  The claim says a non-numeric page parameter is
normalized to 1; in the code `Math.max(1, parseInt(page))` on a non-numeric
value is `NaN` (modelled `none`), not 1. -/
theorem listing_page_not_one_counterexample : listingPageNum (some "abc") ≠ some 1 := by
  decide

/-- C6, amended.  The normalized page number is 1 when the parameter is
missing, `NaN` when it is non-numeric, and `max 1 n` for a parsed integer
`n` (so any value below 1 becomes 1); the skip applied to the query equals
`(page - 1) * limit` whenever both normalized values are numbers. -/
theorem listing_page_skip_normalization (raw : Option String) :
    (raw = none → listingPageNum raw = some 1) ∧
    (∀ s, raw = some s → parseIntJS s = none → listingPageNum raw = none) ∧
    (∀ s n, raw = some s → parseIntJS s = some n →
      listingPageNum raw = some (max 1 n) ∧ 1 ≤ max 1 n) ∧
    (∀ p l : Int, skipOf (some p) (some l) = some ((p - 1) * l)) := by
  refine ⟨?_, ?_, ?_, ?_⟩
  · rintro rfl
    rfl
  · rintro s rfl h
    simp [listingPageNum, h, jsMax]
  · rintro s n rfl h
    exact ⟨by simp [listingPageNum, h, jsMax], le_max_left _ _⟩
  · intro p l
    rfl

/-- C6, witness: page `"0"` is raised to 1, and page 1 with limit 10 skips
0 documents. -/
theorem listing_page_skip_normalization_witness :
    listingPageNum (some "0") = some 1 ∧ skipOf (some 1) (some 10) = some 0 := by
  have h := (((listing_page_skip_normalization (some "0")).2.2.1) "0" 0 rfl (by decide)).1
  have h2 := (listing_page_skip_normalization none).2.2.2 1 10
  rw [h, h2]
  exact ⟨by decide, by decide⟩

/-! ### C10 — search `limit` is only lower-bounded -/

/-- Current page of search results after skip/limit windowing. -/
def searchResultsPage (matching : List Product) (pageNum limitNum : Int) : List Product :=
  (matching.drop ((pageNum - 1) * limitNum).toNat).take limitNum.toNat

/-- C10.  For every numeric `limit`, the search endpoint applies
`max 1 (parsed limit)` with no upper clamp (unlike the listing endpoint,
which also clamps at 100), and the first result page of a matching set
holds `min limit total` documents — more than 100 of them when the limit
and the matching set exceed 100. -/
theorem search_limit_unclamped (s : String) (n : Int) (h : parseIntJS s = some n) :
    searchLimitNum (some s) = some (max 1 n) ∧
    listingLimitNum (some s) = some (max 1 (min n 100)) ∧
    ∀ matching : List Product,
      (searchResultsPage matching 1 (max 1 n)).length =
        min (max 1 n).toNat matching.length := by
  refine ⟨by simp [searchLimitNum, h, jsMax], by simp [listingLimitNum, h, jsMax, jsMin], ?_⟩
  intro matching
  simp [searchResultsPage]

/-- C10, witness: `limit=150` stays 150 on search (while the listing
endpoint clamps it to 100) and a page of 150 matching documents comes back
whole. -/
theorem search_limit_unclamped_witness :
    searchLimitNum (some "150") = some 150 ∧
    listingLimitNum (some "150") = some 100 ∧
    (searchResultsPage (List.replicate 150 sampleProduct) 1 150).length = 150 := by
  obtain ⟨h1, h2, h3⟩ := search_limit_unclamped "150" 150 (by decide)
  refine ⟨by rw [h1]; decide, by rw [h2]; decide, ?_⟩
  have h4 := h3 (List.replicate 150 sampleProduct)
  simpa using h4

/-! ### C5 — minPrice/maxPrice handling -/

/-- C5, counterexample.  The claim says an unparsable bound is omitted from
the price predicate entirely, behaving as if never supplied.  In the code
`if (minPrice)` is string truthiness, so the non-empty unparsable value
`"abc"` *is* included, as `$gte: NaN` — and a NaN bound matches no
real-priced product, the opposite of no restriction. -/
theorem price_filter_nan_counterexample :
    mkPriceFilter (some "abc") none = some ⟨some JSNum.nan, none⟩ ∧
    priceMatches (mkPriceFilter (some "abc") none) 10 = false ∧
    priceMatches none 10 = true := by
  decide

/-- C5, amended.  A bound that is absent or the empty string is omitted
(and with both bounds absent the filter restricts nothing); a non-empty
bound that does not parse as a float is included with value `NaN` and then
matches no real-valued price; a parsable bound is applied inclusively
(`$gte`/`$lte`).  No error is raised in any case. -/
theorem price_filter_normalization (p : ℚ) :
    (∀ rawMin rawMax, truthyStr rawMin = false → truthyStr rawMax = false →
      mkPriceFilter rawMin rawMax = none ∧
      priceMatches (mkPriceFilter rawMin rawMax) p = true) ∧
    (∀ s, s ≠ "" → parseFloatJS s = none →
      mkPriceFilter (some s) none = some ⟨some JSNum.nan, none⟩ ∧
      priceMatches (mkPriceFilter (some s) none) p = false ∧
      priceMatches (mkPriceFilter none (some s)) p = false) ∧
    (∀ s q, s ≠ "" → parseFloatJS s = some q →
      priceMatches (mkPriceFilter (some s) none) p = decide (q ≤ p) ∧
      priceMatches (mkPriceFilter none (some s)) p = decide (p ≤ q)) := by
  refine ⟨?_, ?_, ?_⟩
  · intro rawMin rawMax h1 h2
    constructor
    · simp [mkPriceFilter, h1, h2]
    · simp [mkPriceFilter, h1, h2, priceMatches]
  · intro s hs hp
    have ht : truthyStr (some s) = true := by simp [truthyStr, hs]
    refine ⟨?_, ?_, ?_⟩
    · simp [mkPriceFilter, ht, truthyStr, hs, jsParseFloat, hp]
    · simp [mkPriceFilter, ht, truthyStr, hs, jsParseFloat, hp, priceMatches, boundGteSat]
    · simp [mkPriceFilter, ht, truthyStr, hs, jsParseFloat, hp, priceMatches, boundLteSat]
  · intro s q hs hp
    have ht : truthyStr (some s) = true := by simp [truthyStr, hs]
    constructor
    · simp [mkPriceFilter, ht, truthyStr, hs, jsParseFloat, hp, priceMatches, boundGteSat]
    · simp [mkPriceFilter, ht, truthyStr, hs, jsParseFloat, hp, priceMatches, boundLteSat]

/-- C5, witness: `minPrice=15.5` admits a product priced exactly 15.5 (the
lower bound is inclusive), and `maxPrice=20` admits one priced exactly 20. -/
theorem price_filter_normalization_witness :
    priceMatches (mkPriceFilter (some "15.5") none) (31 / 2) = true ∧
    priceMatches (mkPriceFilter none (some "20")) 20 = true := by
  have hf : parseFloatJS "15.5" = some (31 / 2) := by
    norm_num +decide [parseFloatJS, parseExpJS, digitsValue, decVal]
  have hg : parseFloatJS "20" = some 20 := by
    norm_num +decide [parseFloatJS, parseExpJS, digitsValue, decVal]
  obtain ⟨h1, -⟩ := (price_filter_normalization (31 / 2)).2.2 "15.5" (31 / 2) (by decide) hf
  obtain ⟨-, h2⟩ := (price_filter_normalization 20).2.2 "20" 20 (by decide) hg
  rw [h1, h2]
  norm_num

/-! ### C3 — category filter: exact case-insensitive match? -/

/-- With no live suffix left, no pattern can match. -/
theorem patMatchAux_nil (ps : List (RAtom × Bool)) : patMatchAux ps [] = false := by
  induction ps with
  | nil => rfl
  | cons hd t ih =>
    obtain ⟨a, st⟩ := hd
    simp [patMatchAux, stepPat, ite_self, ih]

/-- A metacharacter-free pattern parses to its characters as plain unstarred
literal atoms. -/
theorem parsePattern_lit :
    ∀ p : List Char, (∀ c ∈ p, isRegexMeta c = false) →
      parsePattern p = some (p.map (fun c => (RAtom.rlit c, false)))
  | [], _ => rfl
  | c :: rest, h => by
    have hc : isRegexMeta c = false := h c (List.mem_cons_self _ _)
    have hcdot : c ≠ '.' := by
      intro e
      rw [e] at hc
      simp [isRegexMeta] at hc
    have hrest : ∀ x ∈ rest, isRegexMeta x = false :=
      fun x hx => h x (List.mem_cons_of_mem _ hx)
    have ih := parsePattern_lit rest hrest
    cases rest with
    | nil => simp [parsePattern, hc, hcdot]
    | cons d t =>
      have hd : d ≠ '*' := by
        intro e
        have hm := hrest d (List.mem_cons_self _ _)
        rw [e] at hm
        simp [isRegexMeta] at hm
      simp [parsePattern, hc, hcdot, hd, ih]

/-- Matching a literal-only pattern is exactly case-insensitive equality of
the character lists. -/
theorem patMatchAux_lit :
    ∀ p s : List Char,
      patMatchAux (p.map (fun c => (RAtom.rlit c, false))) [s] =
        decide (p.map asciiLower = s.map asciiLower)
  | [], s => by cases s <;> simp [patMatchAux]
  | c :: p', s => by
    cases s with
    | nil => simp [patMatchAux, stepPat, stepAtom, patMatchAux_nil]
    | cons d s' =>
      have ih := patMatchAux_lit p' s'
      by_cases hcd : asciiLower c = asciiLower d
      · simp [patMatchAux, stepPat, stepAtom, atomMatchesI, hcd, ih]
      · simp [patMatchAux, stepPat, stepAtom, atomMatchesI, hcd, patMatchAux_nil]

/-- C3, counterexample.  The trimmed category value is spliced into the
regular expression verbatim, so the supplied value `a.c` matches the stored
category `abc` even though the two are not equal up to letter case: the
filter is not an exact (literal) match for every supplied value. -/
theorem category_filter_counterexample :
    listingCategoryMatches (some "a.c") "abc" = some true ∧
    specCaseInsensitiveEq "a.c" "abc" = false := by
  decide

/-- C3, amended.  For every supplied category whose trimmed value contains
no regex metacharacter — in particular plain names like `Electronics` — the
filter matches a stored category iff the two are equal up to letter case
(anchored, never a substring match).  A trimmed value containing
metacharacters is instead interpreted as a regular expression. -/
theorem category_filter_meta_free (raw stored : String)
    (h1 : trimJS raw ≠ "")
    (h2 : ∀ c ∈ (trimJS raw).toList, isRegexMeta c = false) :
    listingCategoryMatches (some raw) stored =
      some (specCaseInsensitiveEq (trimJS raw) stored) := by
  have hp : listingCategoryPattern (some raw) = some (trimJS raw) := by
    simp [listingCategoryPattern, h1]
  simp only [listingCategoryMatches, hp, categoryRegexMatch]
  rw [parsePattern_lit _ h2]
  simp [patMatch, patMatchAux_lit, specCaseInsensitiveEq]

/-- C3, witness: `category=Electronics` matches the stored value
`electronics` but not `electronics-accessories`. -/
theorem category_filter_meta_free_witness :
    listingCategoryMatches (some "Electronics") "electronics" = some true ∧
    listingCategoryMatches (some "Electronics") "electronics-accessories" = some false := by
  have e1 := category_filter_meta_free "Electronics" "electronics" (by decide) (by decide)
  have e2 := category_filter_meta_free "Electronics" "electronics-accessories"
    (by decide) (by decide)
  rw [e1, e2]
  constructor <;> decide

/-! ### C1 — partial update bodies are rejected, not patched -/

/-- C1 (code bug).  The README's own `PUT /products/:id` example sends only
`price` and `inStock` and shows a success; but `validateProduct` runs on PUT
and requires `name`, `description`, `price` and `category`, so that exact
body is answered 400 `Validation failed` and the store is untouched — the
request never reaches `findByIdAndUpdate`.  The store-level update itself
*is* a partial patch: applied directly, the body would change exactly the
supplied fields. -/
theorem patch_update_rejected :
    validateProductErrors patchBody =
      ["Name is required and must be a non-empty string",
       "Description is required and must be a non-empty string",
       "Category is required and must be a non-empty string"] ∧
    putRoute [sampleProduct] "a1b2c3d4e5f6a1b2c3d4e5f6" patchBody = ⟨400, [sampleProduct]⟩ ∧
    applyUpdate sampleProduct patchBody =
      { sampleProduct with price := 1799, inStock := false } := by
  refine ⟨by decide, by decide, by decide⟩

/-! ### C4 — malformed ids on PUT/DELETE yield 500, not a client error -/

/-- C4 (code bug).  A malformed id (here `"bad-id"`, castable to no
ObjectId) makes `findByIdAndUpdate`/`findByIdAndDelete` throw a `CastError`,
which the PUT and DELETE routes' own catch blocks answer with 500
`Internal server error` — the global error handler's `CastError → 400` branch
is unreachable from them.  Only the GET route answers a client error (404).
The store is unchanged in every case. -/
theorem malformed_id_responses :
    putRoute [sampleProduct] "bad-id" fullBody = ⟨500, [sampleProduct]⟩ ∧
    deleteRoute [sampleProduct] "bad-id" = ⟨500, [sampleProduct]⟩ ∧
    getByIdStatus [sampleProduct] "bad-id" = 404 := by
  refine ⟨by decide, by decide, by decide⟩

/-! ### C7 — statistics of the empty store -/

/-- C7.  With zero products the stats route answers
`summary.totalProducts = 0`, the *number* `0` for `inStockPercentage`
(the ternary's guard avoids the division), the substituted empty
`priceStatistics` object and an empty category list; the operation
succeeds. -/
theorem empty_store_stats :
    (statsResponse []).summary.totalProducts = 0 ∧
    (statsResponse []).summary.inStock = 0 ∧
    (statsResponse []).summary.outOfStock = 0 ∧
    (statsResponse []).summary.inStockPercentage = JSVal.num 0 ∧
    (statsResponse []).priceStatistics = none ∧
    (statsResponse []).categories = [] := by
  refine ⟨rfl, rfl, rfl, rfl, rfl, rfl⟩

/-! ### C8 — per-category counts partition the store, sorted by count -/

/-- The length of the category-`c` group equals the multiplicity of `c`
among the stored category values. -/
theorem filter_category_length (ps : List Product) (c : String) :
    (ps.filter (fun p => p.category == c)).length = (ps.map Product.category).count c := by
  induction ps with
  | nil => simp
  | cons p t ih =>
    by_cases h : p.category = c
    · simp [List.filter_cons, List.count_cons, h, ih]
    · simp [List.filter_cons, List.count_cons, h, ih]

/-- C8.  In the stats response the per-category `count` fields sum to the
overall total number of products, and the `$sort: { count: -1 }` stage
leaves the category entries ordered by `count` descending. -/
theorem category_counts_sum_and_order (ps : List Product) :
    ((productCategoryStats ps).map CategoryStat.count).sum = totalProductsCount ps ∧
    List.Pairwise (fun a b => b.count ≤ a.count) (productCategoryStats ps) := by
  constructor
  · have hperm :
        List.Perm (productCategoryStats ps)
          ((ps.map Product.category).dedup.map
            (fun c => mkCategoryStat c (ps.filter (fun p => p.category == c)))) :=
      List.perm_insertionSort byCountDesc _
    rw [List.Perm.sum_eq (hperm.map CategoryStat.count), List.map_map]
    have hpt : ∀ c ∈ (ps.map Product.category).dedup,
        (CategoryStat.count ∘
            fun c => mkCategoryStat c (ps.filter (fun p => p.category == c))) c =
          (ps.map Product.category).count c := by
      intro c _
      simp [mkCategoryStat, filter_category_length]
    rw [List.map_congr_left hpt, List.sum_map_count_dedup_eq_length]
    simp [totalProductsCount]
  · exact List.sorted_insertionSort byCountDesc _

/-! ### C9 — groups are non-empty; percentages stay in [0, 100] -/

/-- Banker's rounding of a non-negative rational is non-negative. -/
theorem mongoRound_nonneg {x : ℚ} (h : 0 ≤ x) : 0 ≤ mongoRound x := by
  have hf : (0 : ℤ) ≤ ⌊x⌋ := Int.floor_nonneg.mpr h
  unfold mongoRound
  split_ifs <;> omega

/-- Banker's rounding never exceeds an integer upper bound of its input. -/
theorem mongoRound_le {x : ℚ} {m : ℤ} (h : x ≤ (m : ℚ)) : mongoRound x ≤ m := by
  have hfm : ⌊x⌋ ≤ m := by
    have hmono := Int.floor_le_floor h
    simpa using hmono
  have hfx : (⌊x⌋ : ℚ) ≤ x := Int.floor_le x
  unfold mongoRound
  split_ifs with h1 h2 h3
  · exact hfm
  · have hlt : (⌊x⌋ : ℚ) < (m : ℚ) := by linarith
    have : ⌊x⌋ < m := by exact_mod_cast hlt
    omega
  · exact hfm
  · push_neg at h1
    have hlt : (⌊x⌋ : ℚ) < (m : ℚ) := by linarith
    have : ⌊x⌋ < m := by exact_mod_cast hlt
    omega

/-- Two-decimal banker's rounding preserves non-negativity. -/
theorem mongoRound2_nonneg {x : ℚ} (h : 0 ≤ x) : 0 ≤ mongoRound2 x := by
  unfold mongoRound2
  apply div_nonneg _ (by norm_num)
  exact_mod_cast mongoRound_nonneg (by positivity)

/-- Two-decimal banker's rounding preserves the bound 100. -/
theorem mongoRound2_le_100 {x : ℚ} (h : x ≤ 100) : mongoRound2 x ≤ 100 := by
  unfold mongoRound2
  rw [div_le_iff₀ (by norm_num : (0 : ℚ) < 100)]
  have hb : x * 100 ≤ ((10000 : ℤ) : ℚ) := by push_cast; linarith
  have hr := mongoRound_le hb
  calc ((mongoRound (x * 100) : ℤ) : ℚ) ≤ ((10000 : ℤ) : ℚ) := by exact_mod_cast hr
    _ = 100 * 100 := by norm_num

/-- C9.  Every category entry in the stats response comes from a non-empty
group, so its `count` is positive (the division by `count` is never a
division by zero) and its `inStockPercentage` lies in [0, 100]. -/
theorem category_stats_percentage_bounds (ps : List Product) (st : CategoryStat)
    (h : st ∈ productCategoryStats ps) :
    0 < st.count ∧ 0 ≤ st.inStockPercentage ∧ st.inStockPercentage ≤ 100 := by
  rw [productCategoryStats, List.mem_insertionSort] at h
  obtain ⟨c, hc, rfl⟩ := List.mem_map.mp h
  obtain ⟨p, hp, hpc⟩ := List.mem_map.mp (List.mem_dedup.mp hc)
  have hmem : p ∈ ps.filter (fun q => q.category == c) :=
    List.mem_filter.mpr ⟨hp, by simp [hpc]⟩
  have hlen : 0 < (ps.filter (fun q => q.category == c)).length :=
    List.length_pos.mpr (List.ne_nil_of_mem hmem)
  refine ⟨by simpa [mkCategoryStat] using hlen, ?_, ?_⟩
  · simp only [mkCategoryStat]
    apply mongoRound2_nonneg
    positivity
  · simp only [mkCategoryStat]
    apply mongoRound2_le_100
    have hk : (((ps.filter (fun q => q.category == c)).filter Product.inStock).length : ℚ) ≤
        ((ps.filter (fun q => q.category == c)).length : ℚ) := by
      exact_mod_cast List.length_filter_le _ _
    have hn : (0 : ℚ) < ((ps.filter (fun q => q.category == c)).length : ℚ) := by
      exact_mod_cast hlen
    have hr :
        (((ps.filter (fun q => q.category == c)).filter Product.inStock).length : ℚ) /
            ((ps.filter (fun q => q.category == c)).length : ℚ) ≤ 1 :=
      (div_le_one hn).mpr hk
    calc (((ps.filter (fun q => q.category == c)).filter Product.inStock).length : ℚ) /
          ((ps.filter (fun q => q.category == c)).length : ℚ) * 100 ≤ 1 * 100 :=
          mul_le_mul_of_nonneg_right hr (by norm_num)
      _ = 100 := by norm_num

/-- C9, witness: the one-product store has the single category group
`sampleStat`, whose count is 1 and whose percentage is 100. -/
theorem category_stats_percentage_bounds_witness :
    0 < sampleStat.count ∧ 0 ≤ sampleStat.inStockPercentage ∧
    sampleStat.inStockPercentage ≤ 100 := by
  apply category_stats_percentage_bounds [sampleProduct]
  have hev : productCategoryStats [sampleProduct] = [sampleStat] := by
    norm_num [productCategoryStats, mkCategoryStat, mongoRound2, mongoRound,
      List.insertionSort, List.orderedInsert, sampleProduct, sampleStat, List.filter]
  rw [hev]
  exact List.mem_singleton_self _

end ProductApi
